import Mathlib

/-!
Verification of the column-resolution and metric-derivation pipeline of
`src/app.py` (Luanta Jira analytics dashboard).

The embedding models the input table as an ordered column-name list plus
rows of cells, where a cell is `Option String` (`none` models a pandas
`NaN`/missing cell, `some s` the raw CSV text).  Timestamps are modelled
as rational day numbers, and the tolerant timestamp parser
(`pd.to_datetime(errors="coerce", utc=True)`, `to_datetime_safe` in
app.py) is abstracted as a parameter `toDT : String → Option ℚ` of the
elapsed-time metrics; numbers are rationals (ℚ) in place of IEEE floats,
which is faithful for the finite decimal arithmetic the claims exercise.
-/

namespace LuantaApp

/-- Cell of the raw table: `none` models a pandas missing value (NaN),
`some s` the raw text of the cell. -/
abbrev Cell := Option String

/-- Raw table: header (ordered column names) plus rows of cells, each row
aligned positionally with the header, mirroring a parsed CSV. -/
structure Table where
  cols : List String
  rows : List (List Cell)

/-- Look a cell up by column name in one row (pandas `df[col]` access for
a single row); a name absent from the header, or a short row, yields a
missing cell. -/
def getCell (cols : List String) (row : List Cell) (c : String) : Cell :=
  match cols.findIdx? (fun x => x == c) with
  | some i => (row.get? i).getD none
  | none => none

/-- Column of a table as a list of cells (pandas `df[col]`). -/
def colValues (t : Table) (c : String) : List Cell :=
  t.rows.map (fun r => getCell t.cols r c)

/-- ASCII lower-casing of one character; the inputs the program matches on
are ASCII, so this models Python `str.lower()` on them. -/
def charLower (c : Char) : Char :=
  if 'A' ≤ c && c ≤ 'Z' then Char.ofNat (c.toNat + 32) else c

/-- Lower-cased character list of a string. -/
def lowerList (l : List Char) : List Char :=
  l.map charLower

/-- Lower-cased string (Python `s.lower()` on ASCII input). -/
def lowerStr (s : String) : String :=
  ⟨lowerList s.data⟩

/-- Whitespace test for the characters Python `str.strip()` removes in the
inputs under consideration. -/
def isWS (c : Char) : Bool :=
  c == ' ' || c == '\t' || c == '\n' || c == '\r'

/-- Strip leading and trailing whitespace from a character list. -/
def trimList (l : List Char) : List Char :=
  ((l.dropWhile isWS).reverse.dropWhile isWS).reverse

/-- Starting-segment test on character lists. -/
def listStartsWith : List Char → List Char → Bool
  | _, [] => true
  | [], _ :: _ => false
  | a :: as, b :: bs => a == b && listStartsWith as bs

/-- Contiguous-substring test on character lists (Python `sub in s`). -/
def listHasSub : List Char → List Char → Bool
  | [], sub => sub.isEmpty
  | a :: t, sub => listStartsWith (a :: t) sub || listHasSub t sub

/-- Case-insensitive substring test: Python `kw.lower() in c.lower()`. -/
def containsCI (hay needle : String) : Bool :=
  listHasSub (lowerList hay.data) (lowerList needle.data)

/-- Embedding of `safe_first_match` (app.py lines 136-142): first column
that contains any keyword, case-insensitively; the keyword loop is outer,
the column loop inner. -/
def safe_first_match (cols kws : List String) : Option String :=
  kws.findSome? (fun kw => cols.find? (fun c => containsCI c kw))

/-- Shared shape of the column-detection lines (app.py lines 200-215):
a case-sensitive exact membership test for one canonical name
(`"Name" if "Name" in df.columns else ...`), falling back to
`safe_first_match` over the keyword list. -/
def resolveExactThen (cols : List String) (exact : String) (kws : List String) :
    Option String :=
  if cols.contains exact then some exact else safe_first_match cols kws

/-- app.py line 200: `delay_col` (substring search only, no exact phase). -/
def delay_col (cols : List String) : Option String :=
  safe_first_match cols ["delay_rate", "delay", "delay_rate_%"]

/-- app.py line 201. -/
def priority_col (cols : List String) : Option String :=
  resolveExactThen cols "Priority" ["priority"]

/-- app.py line 202. -/
def role_col (cols : List String) : Option String :=
  resolveExactThen cols "Role" ["role", "team"]

/-- app.py line 203. -/
def status_col (cols : List String) : Option String :=
  resolveExactThen cols "Status_Current" ["status_current", "status"]

/-- app.py line 204. -/
def last_updated_col (cols : List String) : Option String :=
  resolveExactThen cols "Last_Updated_Date" ["last_updated", "updated"]

/-- app.py line 205. -/
def status_entered_col (cols : List String) : Option String :=
  resolveExactThen cols "Status_Entered_Date" ["status_entered", "entered_date"]

/-- app.py line 206. -/
def issue_key_col (cols : List String) : Option String :=
  resolveExactThen cols "Issue_Key" ["issue_key", "key"]

/-- app.py line 207. -/
def summary_col (cols : List String) : Option String :=
  resolveExactThen cols "Summary" ["summary", "title"]

/-- app.py line 208. -/
def assignee_col (cols : List String) : Option String :=
  resolveExactThen cols "Assignee" ["assignee", "owner"]

/-- app.py line 209. -/
def blocked_reason_col (cols : List String) : Option String :=
  resolveExactThen cols "Blocked_Reason" ["blocked_reason", "block_reason", "blocked"]

/-- app.py line 210. -/
def root_cause_col (cols : List String) : Option String :=
  resolveExactThen cols "Root_Cause_Category" ["root_cause", "cause"]

/-- app.py line 213. -/
def sla_breached_col (cols : List String) : Option String :=
  resolveExactThen cols "SLA_Breached" ["sla_breached", "breach"]

/-- app.py line 214. -/
def resolution_days_col (cols : List String) : Option String :=
  resolveExactThen cols "Resolution_Days"
    ["resolution_days", "resolution_time_days", "resolution"]

/-- app.py line 215. -/
def sla_target_col (cols : List String) : Option String :=
  resolveExactThen cols "SLA_Target_Days"
    ["sla_target_days", "sla_days", "sla_target"]

/-- Value of a digit string read left to right. -/
def digitsVal (l : List Char) : Nat :=
  l.foldl (fun n c => 10 * n + (c.toNat - 48)) 0

/-- Decimal-literal parser modelling `pd.to_numeric(..., errors="coerce")`
on CSV text: surrounding whitespace is tolerated (stripped), an optional
sign, then an integer and/or fractional part; anything else (including a
trailing `%`) coerces to the missing marker.  Scientific notation and the
special float literals are outside the modelled fragment. -/
def parseDecimal (s : String) : Option ℚ :=
  let t := trimList s.data
  let sgn : ℚ := match t with
    | '-' :: _ => -1
    | _ => 1
  let u : List Char := match t with
    | '-' :: r => r
    | '+' :: r => r
    | r => r
  let ip := u.takeWhile (fun c => c != '.')
  let rest := u.dropWhile (fun c => c != '.')
  match rest with
  | [] =>
    if (!ip.isEmpty) && ip.all Char.isDigit then
      some (sgn * (digitsVal ip : ℚ))
    else none
  | _ :: fp =>
    if (!(ip.isEmpty && fp.isEmpty)) && ip.all Char.isDigit && fp.all Char.isDigit then
      some (sgn * ((digitsVal ip : ℚ) + (digitsVal fp : ℚ) / (10 ^ fp.length : ℚ)))
    else none

/-- Numeric normalization of one cell: `pd.to_numeric(series, errors="coerce")`
keeps a missing cell missing and coerces unparsable text to missing. -/
def toNumeric (c : Cell) : Option ℚ :=
  match c with
  | none => none
  | some s => parseDecimal s

/-- String rendering of a cell under `Series.astype(str)`: pandas renders a
missing value as the string `"nan"`. -/
def cellStr (c : Cell) : String :=
  match c with
  | none => "nan"
  | some s => s

/-- Truthy-token set of app.py line 438. -/
def truthyStrs : List String := ["true", "1", "yes", "y"]

/-- Boolean-flag normalization (app.py line 438):
`astype(str).str.lower().isin(["true", "1", "yes", "y"])`. -/
def truthy (c : Cell) : Bool :=
  truthyStrs.contains (lowerStr (cellStr c))

/-- Indicator of a Bool as a rational, as pandas does when taking the mean
of a boolean column. -/
def boolToQ (b : Bool) : ℚ := if b then 1 else 0

/-- Mean of a list of rationals followed by a `pd.notna` guard: pandas
yields NaN on an empty list and the guard collapses it to the missing
sentinel, so `none` models that guarded NaN.  Used for Average Delay
(app.py lines 239-241), whose `pd.notna(avg_delay_val)` check performs the
collapse. -/
def meanQ (l : List ℚ) : Option ℚ :=
  if l.isEmpty then none else some (l.sum / l.length)

/-- Value of a pandas float expression that may be NaN: the mean of an
empty column is NaN, which is a float value, not Python `None`. -/
inductive PandasFloat where
  | nan
  | val (q : ℚ)
deriving DecidableEq

/-- Multiplication of a possibly-NaN pandas float by 100 (NaN times 100
stays NaN). -/
def PandasFloat.mul100 : PandasFloat → PandasFloat
  | .nan => .nan
  | .val q => .val (q * 100)

/-- Unguarded pandas mean of a numeric or boolean column with no missing
entries: NaN exactly when the column is empty. -/
def meanPF (l : List ℚ) : PandasFloat :=
  if l.isEmpty then .nan else .val (l.sum / l.length)

/-- Descending insertion by a boolean comparison `le`. -/
def insertDescBy {α : Type} (le : α → α → Bool) (x : α) : List α → List α
  | [] => [x]
  | y :: t => if le y x then x :: y :: t else y :: insertDescBy le x t

/-- Sort descending by a boolean comparison, modelling
`sort_values(..., ascending=False)` (tie order in pandas is
implementation defined; the claims do not depend on it). -/
def sortDescBy {α : Type} (le : α → α → Bool) (l : List α) : List α :=
  l.foldr (insertDescBy le) []

/-- Comparison of keyed rational rows by their value component. -/
def leSnd {β : Type} (a b : β × ℚ) : Bool :=
  decide (a.2 ≤ b.2)

/-- Group a keyed list and take the mean of each group's values, modelling
`groupby(key)[val].mean()` (pandas additionally orders the group keys,
which only affects tie display order). -/
def groupMeans (ps : List (String × ℚ)) : List (String × ℚ) :=
  (ps.map Prod.fst).dedup.map (fun k =>
    (k, ((ps.filter (fun p => p.1 == k)).map Prod.snd).sum /
        (((ps.filter (fun p => p.1 == k)).map Prod.snd).length : ℚ)))

/-- Frequency table of `Series.value_counts()`: one `(value, count)` pair
per distinct value, ordered by descending count. -/
def valueCounts (vs : List String) : List (String × Nat) :=
  sortDescBy (fun a b => decide (a.2 ≤ b.2)) (vs.dedup.map (fun v => (v, vs.count v)))

/-- Embedding of the `p0_count` metric (app.py lines 232-235): when the
Priority column resolves, count the rows whose Priority cell, rendered via
`astype(str)`, contains "P0" case-insensitively. -/
def p0_count (t : Table) : Option Nat :=
  (priority_col t.cols).map (fun pc =>
    ((colValues t pc).filter (fun c => containsCI (cellStr c) "P0")).length)

/-- Embedding of the `avg_delay` metric (app.py lines 237-242): mean of the
numeric coercion of the delay column; `none` models the "N/A" state (column
unresolved, or the mean of an all-missing column being NaN). -/
def avg_delay (t : Table) : Option ℚ :=
  (delay_col t.cols).bind (fun dc => meanQ ((colValues t dc).filterMap toNumeric))

/-- Per-row (role, delay) pairs of the Performance Breakdown section
(app.py lines 267-269) and of the summary recomputation (lines 561-563):
numeric coercion of the delay cell, then `dropna` on both columns. -/
def delayPairs (t : Table) : List (String × ℚ) :=
  match role_col t.cols, delay_col t.cols with
  | some rc, some dc =>
    t.rows.filterMap (fun r =>
      match getCell t.cols r rc, toNumeric (getCell t.cols r dc) with
      | some role, some v => some (role, v)
      | _, _ => none)
  | _, _ => []

/-- Embedding of `perf_df` (app.py lines 267-270): per-role mean delay
sorted descending; `none` when Role or the delay column is unresolved. -/
def delayByRole (t : Table) : Option (List (String × ℚ)) :=
  match role_col t.cols, delay_col t.cols with
  | some _, some _ => some (sortDescBy leSnd (groupMeans (delayPairs t)))
  | _, _ => none

/-- Per-row (status, queue days) pairs (app.py lines 349-353 and the
summary recomputation, lines 584-588): parse `Status_Entered_Date` with the
tolerant timestamp parser `toDT`, then `dropna` on status and on the
elapsed value `now - entered`, measured in days. -/
def queueRows (toDT : String → Option ℚ) (t : Table) (now : ℚ) :
    List (String × ℚ) :=
  match status_col t.cols, status_entered_col t.cols with
  | some sc, some ec =>
    t.rows.filterMap (fun r =>
      match getCell t.cols r sc, (getCell t.cols r ec).bind toDT with
      | some st, some d => some (st, now - d)
      | _, _ => none)
  | _, _ => []

/-- Embedding of `q_df` (app.py lines 347-354): mean queue days per status,
sorted descending. -/
def queue_df (toDT : String → Option ℚ) (t : Table) (now : ℚ) :
    List (String × ℚ) :=
  sortDescBy leSnd (groupMeans (queueRows toDT t now))

/-- Per-row (row, stale days) pairs (app.py lines 383-391): parse
`Last_Updated_Date`, then `dropna` on the elapsed value `now - updated`. -/
def staleRows (toDT : String → Option ℚ) (t : Table) (now : ℚ) :
    List (List Cell × ℚ) :=
  match last_updated_col t.cols with
  | some lc =>
    t.rows.filterMap (fun r =>
      ((getCell t.cols r lc).bind toDT).map (fun d => (r, now - d)))
  | none => []

/-- Embedding of `stale_df` (app.py lines 391-392): rows at least
`threshold` stale days old, sorted by staleness descending. -/
def stale_df (toDT : String → Option ℚ) (t : Table) (now threshold : ℚ) :
    List (List Cell × ℚ) :=
  sortDescBy leSnd ((staleRows toDT t now).filter (fun p => decide (threshold ≤ p.2)))

/-- One pass over the elapsed-time metrics.  In app.py the two sections
each call `pd.Timestamp.now(tz=timezone.utc)` themselves (lines 351 and
386), so the pass takes two evaluation instants, one per metric. -/
def metricsPass (toDT : String → Option ℚ) (t : Table)
    (nowQueue nowStale threshold : ℚ) :
    List (String × ℚ) × List (List Cell × ℚ) :=
  (queue_df toDT t nowQueue, stale_df toDT t nowStale threshold)

/-- Embedding of `sla_breach_rate` (app.py lines 433-453): with a resolved
SLA-breached column the flags are normalized by the truthy-token test and,
only when Priority is also resolved, the overall rate is the mean of the
flags times 100 (lines 439-442); otherwise, with resolved resolution-days
and SLA-target columns, a breach is a numeric strict comparison (missing
comparing as false, as NaN comparisons do in pandas) and again the rate is
assigned only under the Priority check (lines 448-451); in all remaining
cases the rate stays `None`.  The assignment
`float(tmp[col].mean() * 100)` has no NaN guard, so on a zero-row table it
produces the float NaN — a value distinct from `None` — modelled by
`some PandasFloat.nan`. -/
def sla_breach_rate (t : Table) : Option PandasFloat :=
  match sla_breached_col t.cols with
  | some bc =>
    match priority_col t.cols with
    | some _ =>
      some (PandasFloat.mul100
        (meanPF ((colValues t bc).map (fun c => boolToQ (truthy c)))))
    | none => none
  | none =>
    match resolution_days_col t.cols, sla_target_col t.cols with
    | some rdc, some stc =>
      match priority_col t.cols with
      | some _ =>
        some (PandasFloat.mul100 (meanPF (t.rows.map (fun r =>
          match toNumeric (getCell t.cols r rdc), toNumeric (getCell t.cols r stc) with
          | some a, some b => boolToQ (decide (b < a))
          | _, _ => 0))))
      | none => none
    | _, _ => none

/-- Count of non-missing root-cause values (denominator of the per-category
shares of the Root Cause Distribution). -/
def rootCauseTotal (t : Table) : Nat :=
  match root_cause_col t.cols with
  | some c => ((colValues t c).filterMap id).length
  | none => 0

/-- Embedding of `rc_df` (app.py lines 488-497): frequency table of the
non-missing root-cause values; `none` when the column is unresolved. -/
def rootCauseCounts (t : Table) : Option (List (String × Nat)) :=
  (root_cause_col t.cols).map (fun c => valueCounts ((colValues t c).filterMap id))

/-- Primary Blocked-Tickets filter (app.py lines 520-521): rows whose
status, rendered via `astype(str)` and lower-cased, equals "blocked";
the empty list when the status column is unresolved. -/
def blockedPrimary (t : Table) : List (List Cell) :=
  match status_col t.cols with
  | some sc =>
    t.rows.filter (fun r => lowerStr (cellStr (getCell t.cols r sc)) == "blocked")
  | none => []

/-- Embedding of `blocked_df` (app.py lines 519-524): the primary
status filter, replaced by the rows with a non-missing blocked reason
only when the primary result is empty and `Blocked_Reason` resolves. -/
def blocked_df (t : Table) : List (List Cell) :=
  if (blockedPrimary t).isEmpty then
    match blocked_reason_col t.cols with
    | some bc => t.rows.filter (fun r => (getCell t.cols r bc).isSome)
    | none => []
  else blockedPrimary t

/-- One finding of the executive summary (app.py lines 556-639), tagged by
which branch produced it; the payload carries the data interpolated into
the rendered line. -/
inductive Bullet where
  | delayTop (role : String) (meanDelay : ℚ)
  | delayNoNumeric
  | delayMissingCols
  | queueTop (status : String) (meanDays : ℚ)
  | queueNoValues
  | queueMissingCols
  | slaRisk (rate : PandasFloat)
  | slaMissing
  | rootTop (cause : String)
  | rootEmpty
  | rootMissingCol
deriving DecidableEq

/-- Which of the four fixed findings a bullet belongs to. -/
inductive BulletKind where
  | delay
  | queue
  | sla
  | root
deriving DecidableEq

/-- Kind of a bullet. -/
def Bullet.kind : Bullet → BulletKind
  | .delayTop _ _ => .delay
  | .delayNoNumeric => .delay
  | .delayMissingCols => .delay
  | .queueTop _ _ => .queue
  | .queueNoValues => .queue
  | .queueMissingCols => .queue
  | .slaRisk _ => .sla
  | .slaMissing => .sla
  | .rootTop _ => .root
  | .rootEmpty => .root
  | .rootMissingCol => .root

/-- Whether a bullet is one of the neutral cannot-be-determined lines
rather than a computed finding. -/
def Bullet.isNeutral : Bullet → Bool
  | .delayTop _ _ => false
  | .queueTop _ _ => false
  | .slaRisk _ => false
  | .rootTop _ => false
  | _ => true

/-- Delay-bottleneck finding (app.py lines 559-580): top entry of the
per-role mean-delay table when it is nonempty, else the neutral lines. -/
def delayBullet (t : Table) : Bullet :=
  match role_col t.cols, delay_col t.cols with
  | some _, some _ =>
    match sortDescBy leSnd (groupMeans (delayPairs t)) with
    | [] => .delayNoNumeric
    | p :: _ => .delayTop p.1 p.2
  | _, _ => .delayMissingCols

/-- Queue-bottleneck finding (app.py lines 582-605); line 586 reads its own
evaluation instant, passed here as `now`. -/
def queueBullet (toDT : String → Option ℚ) (t : Table) (now : ℚ) : Bullet :=
  match status_col t.cols, status_entered_col t.cols with
  | some _, some _ =>
    match sortDescBy leSnd (groupMeans (queueRows toDT t now)) with
    | [] => .queueNoValues
    | p :: _ => .queueTop p.1 p.2
  | _, _ => .queueMissingCols

/-- SLA-risk finding (app.py lines 607-617): reuses the `sla_breach_rate`
value computed by the SLA section; the branch condition is
`is not None`, so a NaN rate is rendered as a data line ("nan%"), not as
the neutral line. -/
def slaBullet (t : Table) : Bullet :=
  match sla_breach_rate t with
  | some r => .slaRisk r
  | none => .slaMissing

/-- Primary-root-cause finding (app.py lines 619-637): top entry of the
root-cause frequency table when it is nonempty, else the neutral lines. -/
def rootBullet (t : Table) : Bullet :=
  match root_cause_col t.cols with
  | some c =>
    match valueCounts ((colValues t c).filterMap id) with
    | [] => .rootEmpty
    | p :: _ => .rootTop p.1
  | none => .rootMissingCol

/-- Embedding of the executive-summary `bullets` list (app.py lines
557-637): the four findings, appended in this fixed order. -/
def bullets (toDT : String → Option ℚ) (t : Table) (now : ℚ) : List Bullet :=
  [delayBullet t, queueBullet toDT t now, slaBullet t, rootBullet t]

/-- Two-phase resolver following the words of the specification (spec §4.1
and claim C2), for comparison with the code's resolver: a first pass of
case-insensitive exact equality of a column against any alias, and only on
failure the substring pass. -/
def twoPhaseResolve (cols aliases : List String) : Option String :=
  match aliases.findSome? (fun a => cols.find? (fun c => lowerStr c == lowerStr a)) with
  | some c => some c
  | none => safe_first_match cols aliases

/-- Insufficiency of the Performance Breakdown metric: the section shows an
empty state when Role or the delay column is unresolved (app.py lines
257-265) or when the grouped table is empty (via `render_chart_or_empty`,
lines 128-133 and 272-288). -/
def delayInsufficient (t : Table) : Bool :=
  match delayByRole t with
  | none => true
  | some l => l.isEmpty

/-- Insufficiency of the Root Cause Distribution: the section shows an
empty state when the column is unresolved (app.py line 481) or all values
are missing (line 489). -/
def rootInsufficient (t : Table) : Bool :=
  match rootCauseCounts t with
  | none => true
  | some l => l.isEmpty

/-- Single-row table with an SLA-breached column and no Priority column. -/
def T_slaOnly : Table := ⟨["SLA_Breached"], [[some "true"]]⟩

/-- The same table with a Priority column added. -/
def T_slaWithPriority : Table :=
  ⟨["SLA_Breached", "Priority"], [[some "true", some "P1"]]⟩

/-- Table whose single timestamped row feeds both elapsed-time metrics. -/
def T_nowSplit : Table :=
  ⟨["Status_Current", "Status_Entered_Date", "Last_Updated_Date"],
   [[some "A", some "0", some "0"]]⟩

/-- Table whose `Breach_Resolution` column resolves both as the
SLA-breached column and as the resolution-duration column. -/
def T_overlap1 : Table :=
  ⟨["Priority", "Breach_Resolution"], [[some "P1", some "true"]]⟩

/-- Same header as `T_overlap1`, differing only in the value of the
`Breach_Resolution` column. -/
def T_overlap2 : Table :=
  ⟨["Priority", "Breach_Resolution"], [[some "P1", some "false"]]⟩

/-- Table with distinct SLA-breached, Priority and resolution-duration
columns. -/
def T_slaCfg1 : Table :=
  ⟨["Priority", "SLA_Breached", "Resolution_Days"],
   [[some "P1", some "true", some "5"]]⟩

/-- Same as `T_slaCfg1` except for the resolution-duration value. -/
def T_slaCfg2 : Table :=
  ⟨["Priority", "SLA_Breached", "Resolution_Days"],
   [[some "P1", some "true", some "99"]]⟩

/-- Table with root causes A, A, B and one missing cell. -/
def T_rootCause : Table :=
  ⟨["Root_Cause_Category"], [[some "A"], [some "A"], [some "B"], [none]]⟩

/-- Table with no row in status "Blocked" but three rows with a
non-missing blocked reason. -/
def T_blockedFallback : Table :=
  ⟨["Status_Current", "Blocked_Reason"],
   [[some "Open", some "waiting"], [some "Done", none],
    [some "Open", some "api"], [some "Open", some "db"]]⟩

/-- Table with delay values 10, missing, 30. -/
def T_delayVals : Table :=
  ⟨["Delay_Rate_%"], [[some "10"], [none], [some "30"]]⟩

/-- Table whose delay column is entirely missing. -/
def T_delayMissing : Table :=
  ⟨["Delay_Rate_%"], [[none], [none]]⟩

/-- Table whose Priority column has two P0 rows, one missing cell and one
P1 row. -/
def T_priorityMix : Table :=
  ⟨["Priority"], [[some "P0-urgent"], [none], [some "p0"], [some "P1"]]⟩

/-- Header-only table (a CSV with a header row and no data rows) whose
SLA-breached and Priority columns both resolve. -/
def T_slaEmpty : Table := ⟨["SLA_Breached", "Priority"], []⟩

/-! Helper lemmas. -/

theorem insertDescBy_perm {α : Type} (le : α → α → Bool) (x : α) (l : List α) :
    (insertDescBy le x l).Perm (x :: l) := by
  induction l with
  | nil => exact List.Perm.refl _
  | cons y t ih =>
    by_cases h : le y x
    · simp [insertDescBy, h]
    · simp only [insertDescBy, h, if_neg, Bool.false_eq_true, not_false_eq_true]
      exact (ih.cons y).trans (List.Perm.swap x y t)

theorem sortDescBy_perm {α : Type} (le : α → α → Bool) (l : List α) :
    (sortDescBy le l).Perm l := by
  induction l with
  | nil => exact List.Perm.refl _
  | cons a t ih => exact (insertDescBy_perm le a (sortDescBy le t)).trans (ih.cons a)

theorem sortDescBy_eq_nil_iff {α : Type} (le : α → α → Bool) (l : List α) :
    sortDescBy le l = [] ↔ l = [] := by
  constructor
  · intro h
    have hl := (sortDescBy_perm le l).length_eq
    rw [h] at hl
    exact List.length_eq_zero.mp hl.symm
  · intro h
    subst h
    rfl

/-- C1: for every input table in which the SLABreached field resolves, the
claim (and spec path (a)) asserts the overall SLA breach rate is the mean
of the normalized boolean flags over all rows and is never reported as
insufficient data, whether or not Priority resolves.  The code assigns
`sla_breach_rate` only inside the `if priority_col` check (app.py lines
439-442), so on `T_slaOnly` (SLA_Breached resolved, no Priority column)
the rate stays `None` and the page shows the insufficient-data state,
while the same data with a Priority column yields the expected 100%. -/
theorem sla_rate_requires_priority :
    sla_breached_col T_slaOnly.cols = some "SLA_Breached" ∧
    priority_col T_slaOnly.cols = none ∧
    sla_breach_rate T_slaOnly = none ∧
    sla_breach_rate T_slaWithPriority = some (PandasFloat.val 100) := by
  refine ⟨by decide, by decide, by decide, ?_⟩
  simp [T_slaWithPriority, sla_breach_rate, sla_breached_col, priority_col,
    resolveExactThen, safe_first_match, colValues, getCell, meanPF,
    PandasFloat.mul100, truthy, cellStr, lowerStr, lowerList, charLower,
    truthyStrs, boolToQ]

/-- C3 counterexample: the claim asserts that a trailing "%" is stripped
before numeric parsing, so that "12.3%" normalizes to 12.3; under the
code's `pd.to_numeric(..., errors="coerce")` (app.py lines 239 and 268)
"12.3%" is unparsable and becomes the missing-number marker instead. -/
theorem percent_suffix_not_stripped_cex :
    toNumeric (some "12.3%") = none ∧
    decide (toNumeric (some "12.3%") = some (123 / 10 : ℚ)) = false := by
  exact ⟨by decide, by decide⟩

/-- C3 amended: numeric normalization parses a decimal literal after
stripping surrounding whitespace; it does not strip a "%" suffix, so
"12.3" and " 12.3 " normalize to 12.3 while "12.3%", "", "abc" and a
missing cell all normalize to the missing-number marker; normalization is
a total function and never raises. -/
theorem numeric_normalization_amended :
    toNumeric (some "12.3") = some (123 / 10 : ℚ) ∧
    toNumeric (some " 12.3 ") = some (123 / 10 : ℚ) ∧
    toNumeric (some "12.3%") = none ∧
    toNumeric (some "") = none ∧
    toNumeric (some "abc") = none ∧
    toNumeric none = none := by
  refine ⟨?_, ?_, by decide, by decide, by decide, rfl⟩
  · simp [toNumeric, parseDecimal, trimList, digitsVal, isWS]
    norm_num
  · simp [toNumeric, parseDecimal, trimList, digitsVal, isWS]
    norm_num

theorem find?_decomp {α : Type} (p : α → Bool) (l : List α) (c : α)
    (h : l.find? p = some c) :
    ∃ l1 l2, l = l1 ++ c :: l2 ∧ p c = true ∧ ∀ x ∈ l1, p x = false := by
  induction l with
  | nil => simp at h
  | cons a t ih =>
    by_cases hpa : p a
    · rw [List.find?_cons_of_pos _ hpa] at h
      injection h with h
      subst h
      exact ⟨[], t, rfl, hpa, by simp⟩
    · rw [List.find?_cons_of_neg _ (by simpa using hpa)] at h
      obtain ⟨l1, l2, hsplit, hc, hall⟩ := ih h
      refine ⟨a :: l1, l2, by rw [hsplit]; rfl, hc, ?_⟩
      intro x hx
      rcases List.mem_cons.mp hx with rfl | hx
      · simpa using hpa
      · exact hall _ hx

theorem safe_first_match_decomp (cols kws : List String) (c : String)
    (h : safe_first_match cols kws = some c) :
    ∃ ks1 k ks2, kws = ks1 ++ k :: ks2 ∧
      (∀ k' ∈ ks1, ∀ c' ∈ cols, containsCI c' k' = false) ∧
      ∃ cs1 cs2, cols = cs1 ++ c :: cs2 ∧ containsCI c k = true ∧
        ∀ c' ∈ cs1, containsCI c' k = false := by
  induction kws with
  | nil => simp [safe_first_match] at h
  | cons k0 kt ih =>
    rw [safe_first_match, List.findSome?_cons] at h
    cases hf : cols.find? (fun c' => containsCI c' k0) with
    | some c0 =>
      rw [hf] at h
      injection h with h
      subst h
      obtain ⟨cs1, cs2, hsplit, hc, hall⟩ := find?_decomp _ _ _ hf
      exact ⟨[], k0, kt, rfl, by simp, cs1, cs2, hsplit, hc, hall⟩
    | none =>
      rw [hf] at h
      obtain ⟨ks1, k, ks2, hks, hnone, rest⟩ := ih h
      refine ⟨k0 :: ks1, k, ks2, by rw [hks]; rfl, ?_, rest⟩
      intro k' hk' c' hc'
      rcases List.mem_cons.mp hk' with rfl | hk'
      · exact Bool.eq_false_iff.mpr (List.find?_eq_none.mp hf c' hc')
      · exact hnone _ hk' c' hc'

theorem safe_first_match_none (cols kws : List String)
    (h : safe_first_match cols kws = none) :
    ∀ k ∈ kws, ∀ c' ∈ cols, containsCI c' k = false := by
  intro k hk c' hc'
  have hfind := List.findSome?_eq_none_iff.mp h k hk
  exact Bool.eq_false_iff.mpr (List.find?_eq_none.mp hfind c' hc')

theorem safe_first_match_mem (cols kws : List String) (c : String)
    (h : safe_first_match cols kws = some c) : c ∈ cols := by
  obtain ⟨_, _, _, _, _, cs1, cs2, hsplit, _, _⟩ := safe_first_match_decomp cols kws c h
  rw [hsplit]
  exact List.mem_append_right _ (List.mem_cons_self _ _)

theorem resolveExactThen_mem (cols : List String) (exact : String)
    (kws : List String) (c : String) (h : resolveExactThen cols exact kws = some c) :
    c ∈ cols := by
  rw [resolveExactThen] at h
  by_cases hm : cols.contains exact
  · rw [if_pos hm] at h
    injection h with h
    subst h
    exact List.elem_iff.mp hm
  · rw [if_neg hm] at h
    exact safe_first_match_mem cols kws c h

/-- C2 counterexample: the claim asserts a first pass of case-insensitive
exact alias equality, with the substring pass only on failure.  On columns
["delayed_flag", "delay"] the DelayRate alias "delay" matches the column
"delay" exactly, so the claimed two-phase resolver returns "delay"; the
code's resolver (app.py lines 136-142 and 200) has no exact phase for the
delay column and returns the substring match "delayed_flag" instead. -/
theorem two_phase_resolution_cex :
    twoPhaseResolve ["delayed_flag", "delay"] ["delay_rate", "delay", "delay_rate_%"]
      = some "delay" ∧
    delay_col ["delayed_flag", "delay"] = some "delayed_flag" ∧
    decide ((some "delay" : Option String) = some "delayed_flag") = false := by
  exact ⟨by decide, by decide, by decide⟩

/-- C2 amended: resolution is (i) a case-sensitive exact comparison of the
header against a single canonical column name (no exact phase at all for
DelayRate), and on failure (ii) a single substring pass that scans aliases
in list order and, per alias, columns in table order, returning the first
column containing the alias case-insensitively; there is no
case-insensitive exact-match phase. -/
theorem resolution_exact_name_then_substring (cols kws : List String)
    (exact : String) :
    (cols.contains exact = true → resolveExactThen cols exact kws = some exact) ∧
    (cols.contains exact = false →
      resolveExactThen cols exact kws = safe_first_match cols kws) ∧
    (∀ c, safe_first_match cols kws = some c →
      ∃ ks1 k ks2, kws = ks1 ++ k :: ks2 ∧
        (∀ k' ∈ ks1, ∀ c' ∈ cols, containsCI c' k' = false) ∧
        ∃ cs1 cs2, cols = cs1 ++ c :: cs2 ∧ containsCI c k = true ∧
          ∀ c' ∈ cs1, containsCI c' k = false) ∧
    (safe_first_match cols kws = none →
      ∀ k ∈ kws, ∀ c' ∈ cols, containsCI c' k = false) := by
  refine ⟨fun h => ?_, fun h => ?_, fun c h => safe_first_match_decomp cols kws c h,
    fun h => safe_first_match_none cols kws h⟩
  · rw [resolveExactThen, if_pos h]
  · rw [resolveExactThen,
      if_neg (fun hcontra => by rw [h] at hcontra; exact Bool.false_ne_true hcontra)]

/-- Witness for the amended C2 resolution theorem: the exact phase fires
on a header containing the canonical name, and the substring phase
decomposition holds at a concrete resolved column. -/
theorem resolution_exact_name_then_substring_witness :
    resolveExactThen ["Team_Name", "Status_Current"] "Status_Current"
      ["status_current", "status"] = some "Status_Current" :=
  (resolution_exact_name_then_substring ["Team_Name", "Status_Current"]
    ["status_current", "status"] "Status_Current").1 (by decide)

theorem queueRows_shift (toDT : String → Option ℚ) (t : Table) (n d : ℚ) :
    queueRows toDT t (n + d) = (queueRows toDT t n).map (fun p => (p.1, p.2 + d)) := by
  unfold queueRows
  cases hs : status_col t.cols with
  | none => simp
  | some sc =>
    cases he : status_entered_col t.cols with
    | none => simp
    | some ec =>
      simp only [List.map_filterMap]
      induction t.rows with
      | nil => rfl
      | cons r rt ih =>
        simp only [List.filterMap_cons]
        cases hst : getCell t.cols r sc with
        | none => simpa using ih
        | some st =>
          cases hd : (getCell t.cols r ec).bind toDT with
          | none => simpa using ih
          | some v =>
            simp only [Option.map_some]
            rw [ih]
            congr 1
            simp only [Prod.mk.injEq, true_and]
            ring

theorem staleRows_shift (toDT : String → Option ℚ) (t : Table) (n d : ℚ) :
    staleRows toDT t (n + d) = (staleRows toDT t n).map (fun p => (p.1, p.2 + d)) := by
  unfold staleRows
  cases hs : last_updated_col t.cols with
  | none => simp
  | some lc =>
    simp only [List.map_filterMap]
    induction t.rows with
    | nil => rfl
    | cons r rt ih =>
      simp only [List.filterMap_cons]
      cases hd : (getCell t.cols r lc).bind toDT with
      | none => simpa using ih
      | some v =>
        simp only [Option.map_some']
        rw [ih]
        congr 1
        simp only [Prod.mk.injEq, true_and]
        ring

/-- C5 counterexample: the claim asserts that Queue Time and Stale Tickets
computed in the same pass share one evaluation instant.  Each section reads
its own instant (`pd.Timestamp.now`, app.py lines 351 and 386), modelled by
the two instant parameters of `metricsPass`; on a run whose two clock reads
are 1 and 2 (days), the single row with equal `Status_Entered_Date` and
`Last_Updated_Date` cells gets queue elapsed 1 but stale elapsed 2, which
no single shared instant produces. -/
theorem elapsed_metrics_separate_instants_cex :
    metricsPass parseDecimal T_nowSplit 1 2 1
      = ([("A", 1)], [([some "A", some "0", some "0"], 2)]) ∧
    getCell T_nowSplit.cols [some "A", some "0", some "0"] "Status_Entered_Date"
      = getCell T_nowSplit.cols [some "A", some "0", some "0"] "Last_Updated_Date" ∧
    decide ((2 : ℚ) = 1) = false := by
  refine ⟨?_, by decide, by decide⟩
  unfold metricsPass
  simp only [Prod.mk.injEq]
  constructor
  · simp [T_nowSplit, queue_df, queueRows, status_col, status_entered_col,
      resolveExactThen, safe_first_match, getCell, groupMeans, sortDescBy,
      insertDescBy, leSnd, toNumeric, parseDecimal, trimList, isWS, digitsVal,
      List.takeWhile, List.dropWhile]
  · simp [T_nowSplit, stale_df, staleRows, last_updated_col, resolveExactThen,
      safe_first_match, getCell, sortDescBy, insertDescBy, leSnd, parseDecimal,
      trimList, isWS, digitsVal, List.takeWhile, List.dropWhile]

/-- C5 amended: each elapsed-time metric reads its own evaluation instant
(separate `pd.Timestamp.now` calls at app.py lines 351, 386 and 586), so
the metrics are not guaranteed one common instant; within each single
metric, however, every row is measured against that metric's one instant:
shifting the instant shifts every row's elapsed value uniformly. -/
theorem per_metric_single_instant (toDT : String → Option ℚ) (t : Table)
    (n d : ℚ) :
    queueRows toDT t (n + d) = (queueRows toDT t n).map (fun p => (p.1, p.2 + d)) ∧
    staleRows toDT t (n + d) = (staleRows toDT t n).map (fun p => (p.1, p.2 + d)) :=
  ⟨queueRows_shift toDT t n d, staleRows_shift toDT t n d⟩

theorem sla_rate_congr (t1 t2 : Table) (hc : t1.cols = t2.cols) (bc : String)
    (hb : sla_breached_col t1.cols = some bc)
    (hv : colValues t1 bc = colValues t2 bc) :
    sla_breach_rate t1 = sla_breach_rate t2 := by
  have hb2 : sla_breached_col t2.cols = some bc := by rw [← hc]; exact hb
  unfold sla_breach_rate
  simp only [hb, hb2]
  rw [← hc, hv]

/-- C6 counterexample: the claim asserts that with SLABreached resolved,
two tables identical except in the values of the resolution-duration and
SLA-target columns always yield the same rate.  The single column
`Breach_Resolution` resolves both as the SLA-breached column and as the
resolution-duration column; `T_overlap1` and `T_overlap2` agree on every
other column yet compute rates 100 and 0. -/
theorem sla_rate_duration_column_overlap_cex :
    sla_breached_col T_overlap1.cols = some "Breach_Resolution" ∧
    resolution_days_col T_overlap1.cols = some "Breach_Resolution" ∧
    T_overlap1.cols = T_overlap2.cols ∧
    colValues T_overlap1 "Priority" = colValues T_overlap2 "Priority" ∧
    sla_breach_rate T_overlap1 = some (PandasFloat.val 100) ∧
    sla_breach_rate T_overlap2 = some (PandasFloat.val 0) ∧
    decide ((some (PandasFloat.val 100) : Option PandasFloat)
      = some (PandasFloat.val 0)) = false := by
  refine ⟨by decide, by decide, by decide, by decide, ?_, ?_, by decide⟩
  · simp [T_overlap1, sla_breach_rate, sla_breached_col, priority_col,
      resolveExactThen, safe_first_match, containsCI, lowerList, charLower,
      listHasSub, listStartsWith, colValues, getCell, meanPF, PandasFloat.mul100,
      truthy, cellStr, lowerStr, truthyStrs, boolToQ]
  · simp [T_overlap2, sla_breach_rate, sla_breached_col, priority_col,
      resolveExactThen, safe_first_match, containsCI, lowerList, charLower,
      listHasSub, listStartsWith, colValues, getCell, meanPF, PandasFloat.mul100,
      truthy, cellStr, lowerStr, truthyStrs, boolToQ]

/-- C6 amended: when SLABreached resolves, the computed rate is unchanged
between two tables with the same header that agree on the values of every
column other than the resolved resolution-duration and SLA-target columns,
provided the resolved SLABreached column is not itself one of those two
columns (path (a) takes precedence over path (b)). -/
theorem sla_rate_independent_of_duration_columns (t1 t2 : Table) (bc : String)
    (hc : t1.cols = t2.cols)
    (hb : sla_breached_col t1.cols = some bc)
    (hbd : some bc ≠ resolution_days_col t1.cols ∧ some bc ≠ sla_target_col t1.cols)
    (hagree : ∀ c ∈ t1.cols, some c ≠ resolution_days_col t1.cols →
      some c ≠ sla_target_col t1.cols → colValues t1 c = colValues t2 c) :
    sla_breach_rate t1 = sla_breach_rate t2 := by
  have hmem : bc ∈ t1.cols := resolveExactThen_mem _ _ _ _ hb
  exact sla_rate_congr t1 t2 hc bc hb (hagree bc hmem hbd.1 hbd.2)

/-- Witness for the amended C6 theorem: two concrete tables differing only
in the `Resolution_Days` value compute the same rate. -/
theorem sla_rate_independent_of_duration_columns_witness :
    sla_breach_rate T_slaCfg1 = sla_breach_rate T_slaCfg2 :=
  sla_rate_independent_of_duration_columns T_slaCfg1 T_slaCfg2 "SLA_Breached"
    rfl (by decide) (by decide) (by decide)

theorem sum_map_div_mul_100 (l : List ℚ) (T : ℚ) :
    (l.map (fun x => x / T * 100)).sum = l.sum / T * 100 := by
  induction l with
  | nil => simp
  | cons a t ih =>
    simp only [List.map_cons, List.sum_cons, ih]
    ring

/-- C4: when the RootCause field resolves and at least one non-missing
value exists, each distinct category's percentage share of the total
non-missing count, taken over the returned frequency table, sums to
exactly 100. -/
theorem root_cause_shares_sum_to_100 (t : Table) (l : List (String × Nat))
    (h : rootCauseCounts t = some l) (hne : l ≠ []) :
    (l.map (fun p => (p.2 : ℚ) / (rootCauseTotal t : ℚ) * 100)).sum = 100 := by
  unfold rootCauseCounts at h
  cases hcol : root_cause_col t.cols with
  | none => rw [hcol] at h; simp at h
  | some c =>
    rw [hcol] at h
    simp only [Option.map_some'] at h
    injection h with h
    subst h
    set rc := (colValues t c).filterMap id with hrc
    have htot : rootCauseTotal t = rc.length := by
      unfold rootCauseTotal
      rw [hcol]
    have hrcne : rc ≠ [] := by
      intro h0
      rw [valueCounts, h0] at hne
      exact hne rfl
    have hperm :
        ((valueCounts rc).map
            (fun p => (p.2 : ℚ) / (rootCauseTotal t : ℚ) * 100)).Perm
          ((rc.dedup.map (fun v => (v, rc.count v))).map
            (fun p => (p.2 : ℚ) / (rootCauseTotal t : ℚ) * 100)) :=
      List.Perm.map _ (sortDescBy_perm _ _)
    rw [hperm.sum_eq, List.map_map]
    have hsplit :
        (rc.dedup.map
            ((fun p : String × Nat => (p.2 : ℚ) / (rootCauseTotal t : ℚ) * 100) ∘
              (fun v => (v, rc.count v))))
          = ((rc.dedup.map (fun v => ((rc.count v : ℚ)))).map
              (fun x => x / (rootCauseTotal t : ℚ) * 100)) := by
      rw [List.map_map]
      rfl
    rw [hsplit, sum_map_div_mul_100]
    have hcast : (rc.dedup.map (fun v => ((rc.count v : ℚ)))).sum
        = ((rc.dedup.map (fun v => rc.count v)).sum : ℚ) := by
      rw [Nat.cast_list_sum, List.map_map]
      rfl
    rw [hcast, List.sum_map_count_dedup_eq_length, htot]
    have hlen : ((rc.length : ℚ)) ≠ 0 :=
      Nat.cast_ne_zero.mpr (Nat.pos_iff_ne_zero.mp (List.length_pos.mpr hrcne))
    rw [div_self hlen, one_mul]

/-- Witness for C4: on a table with root causes A, A, B and one missing
cell, the shares 2/3 and 1/3 of the frequency table sum to 100%. -/
theorem root_cause_shares_sum_to_100_witness :
    ((valueCounts ["A", "A", "B"]).map
        (fun p => (p.2 : ℚ) / (rootCauseTotal T_rootCause : ℚ) * 100)).sum = 100 :=
  root_cause_shares_sum_to_100 T_rootCause (valueCounts ["A", "A", "B"])
    (by decide) (by decide)

/-- C7: with the Status field resolved, the Blocked Tickets result is
exactly the rows whose status equals "blocked" case-insensitively; only
when that primary filter is empty and BlockedReason resolves does the
result instead become exactly the rows with a non-missing blocked reason,
and with neither source it is empty — the fallback replaces, and never
merges with, the primary set. -/
theorem blocked_primary_else_fallback (t : Table) (sc : String)
    (h : status_col t.cols = some sc) :
    (blockedPrimary t
        = t.rows.filter (fun r => lowerStr (cellStr (getCell t.cols r sc)) == "blocked")) ∧
    (blockedPrimary t ≠ [] → blocked_df t = blockedPrimary t) ∧
    (blockedPrimary t = [] → ∀ bc, blocked_reason_col t.cols = some bc →
      blocked_df t = t.rows.filter (fun r => (getCell t.cols r bc).isSome)) ∧
    (blockedPrimary t = [] → blocked_reason_col t.cols = none → blocked_df t = []) := by
  have hp : blockedPrimary t
      = t.rows.filter (fun r => lowerStr (cellStr (getCell t.cols r sc)) == "blocked") := by
    unfold blockedPrimary
    rw [h]
  refine ⟨hp, fun hne => ?_, fun hemp bc hbc => ?_, fun hemp hbc => ?_⟩
  · unfold blocked_df
    rw [if_neg (fun hE => hne (List.isEmpty_iff.mp hE))]
  · unfold blocked_df
    rw [if_pos (List.isEmpty_iff.mpr hemp), hbc]
  · unfold blocked_df
    rw [if_pos (List.isEmpty_iff.mpr hemp), hbc]

/-- Witness for C7 exercising the fallback: no row has status "Blocked"
and exactly the three rows with a non-missing reason are returned. -/
theorem blocked_primary_else_fallback_witness :
    blocked_df T_blockedFallback
      = T_blockedFallback.rows.filter
          (fun r => (getCell T_blockedFallback.cols r "Blocked_Reason").isSome) :=
  (blocked_primary_else_fallback T_blockedFallback "Status_Current"
    (by decide)).2.2.1 (by decide) "Blocked_Reason" (by decide)

/-- C8: Average Delay is the mean of the non-missing delay values only
(over 10, missing, 30 it is 20; missing cells are excluded from numerator
and denominator alike, so any reported mean q satisfies q times the
non-missing count equals their sum), and with the column unresolved or no
non-missing value the metric is the insufficient-data sentinel rather than
0 or NaN. -/
theorem avg_delay_mean_of_nonmissing :
    avg_delay T_delayVals = some 20 ∧
    avg_delay T_delayMissing = none ∧
    (∀ t : Table, delay_col t.cols = none → avg_delay t = none) ∧
    (∀ t : Table, ∀ dc, delay_col t.cols = some dc →
      ((colValues t dc).filterMap toNumeric = [] → avg_delay t = none) ∧
      (∀ q, avg_delay t = some q →
        q * ((colValues t dc).filterMap toNumeric).length
          = ((colValues t dc).filterMap toNumeric).sum)) := by
  refine ⟨?_, by decide, fun t h => ?_, fun t dc h => ⟨fun h0 => ?_, fun q hq => ?_⟩⟩
  · simp [T_delayVals, avg_delay, delay_col, safe_first_match, containsCI, lowerList,
      charLower, listHasSub, listStartsWith, colValues, getCell, meanQ, toNumeric,
      parseDecimal, trimList, isWS, digitsVal, List.takeWhile, List.dropWhile]
    norm_num
  · simp [avg_delay, h]
  · simp [avg_delay, h, meanQ, h0]
    exact List.filterMap_eq_nil_iff.mp h0
  · have hq' : meanQ ((colValues t dc).filterMap toNumeric) = some q := by
      rw [avg_delay, h] at hq
      exact hq
    rw [meanQ] at hq'
    by_cases hE : ((colValues t dc).filterMap toNumeric).isEmpty
    · rw [if_pos hE] at hq'
      cases hq'
    · rw [if_neg hE] at hq'
      injection hq' with hq'
      have hne : (colValues t dc).filterMap toNumeric ≠ [] := by
        intro h0
        rw [h0] at hE
        exact hE rfl
      have hlen : ((((colValues t dc).filterMap toNumeric).length : ℚ)) ≠ 0 :=
        Nat.cast_ne_zero.mpr (Nat.pos_iff_ne_zero.mp (List.length_pos.mpr hne))
      rw [← hq']
      exact div_mul_cancel₀ _ hlen

/-- Witness for C8: the mean 20 over the two non-missing values of
`T_delayVals` satisfies 20 times the non-missing count equals their sum. -/
theorem avg_delay_mean_of_nonmissing_witness :
    (20 : ℚ) * ((colValues T_delayVals "Delay_Rate_%").filterMap toNumeric).length
      = ((colValues T_delayVals "Delay_Rate_%").filterMap toNumeric).sum :=
  ((avg_delay_mean_of_nonmissing.2.2.2 T_delayVals "Delay_Rate_%" (by decide)).2 20
    avg_delay_mean_of_nonmissing.1)

theorem p0_cell_filter_len (l : List Cell) :
    (l.filter (fun c => containsCI (cellStr c) "P0")).length
      = ((l.filterMap id).filter (fun v => containsCI v "P0")).length := by
  induction l with
  | nil => rfl
  | cons c t ih =>
    cases c with
    | none =>
      have hnan : containsCI (cellStr none) "P0" = false := by decide
      simp [List.filter_cons, List.filterMap_cons, hnan, ih]
    | some s =>
      have hhead : containsCI (cellStr (some s)) "P0" = containsCI s "P0" := rfl
      cases hcs : containsCI s "P0" <;>
        simp [List.filter_cons, List.filterMap_cons, hhead, hcs, ih]

/-- C10: whenever Priority resolves, the P0 count equals the number of
rows whose Priority value is non-missing and contains "P0"
case-insensitively — a missing cell (rendered "nan" by `astype(str)`)
never matches — and the count is at most the row count. -/
theorem p0_count_ignores_missing (t : Table) (pc : String)
    (h : priority_col t.cols = some pc) :
    p0_count t
      = some ((((colValues t pc).filterMap id).filter
          (fun v => containsCI v "P0")).length) ∧
    (∀ n, p0_count t = some n → n ≤ t.rows.length) := by
  constructor
  · unfold p0_count
    rw [h]
    simp only [Option.map_some']
    congr 1
    exact p0_cell_filter_len (colValues t pc)
  · intro n hn
    have hn' : ((colValues t pc).filter
        (fun c => containsCI (cellStr c) "P0")).length = n := by
      rw [p0_count, h] at hn
      exact Option.some.inj hn
    rw [← hn']
    calc ((colValues t pc).filter (fun c => containsCI (cellStr c) "P0")).length
        ≤ (colValues t pc).length := List.length_filter_le _ _
      _ = t.rows.length := by simp [colValues]

/-- Witness for C10: on a table with two P0 rows, one missing Priority
cell and one P1 row, the count is 2 and is at most the 4 rows. -/
theorem p0_count_ignores_missing_witness :
    p0_count T_priorityMix = some 2 ∧ (2 : Nat) ≤ T_priorityMix.rows.length :=
  ⟨((p0_count_ignores_missing T_priorityMix "Priority" (by decide)).1).trans (by decide),
   (p0_count_ignores_missing T_priorityMix "Priority" (by decide)).2 2 (by decide)⟩

theorem delayBullet_kind (t : Table) : (delayBullet t).kind = BulletKind.delay := by
  unfold delayBullet
  cases role_col t.cols with
  | none => rfl
  | some rc =>
    cases delay_col t.cols with
    | none => rfl
    | some dc =>
      cases sortDescBy leSnd (groupMeans (delayPairs t)) with
      | nil => rfl
      | cons p l => rfl

theorem queueBullet_kind (toDT : String → Option ℚ) (t : Table) (now : ℚ) :
    (queueBullet toDT t now).kind = BulletKind.queue := by
  unfold queueBullet
  cases status_col t.cols with
  | none => rfl
  | some sc =>
    cases status_entered_col t.cols with
    | none => rfl
    | some ec =>
      cases sortDescBy leSnd (groupMeans (queueRows toDT t now)) with
      | nil => rfl
      | cons p l => rfl

theorem slaBullet_kind (t : Table) : (slaBullet t).kind = BulletKind.sla := by
  unfold slaBullet
  cases sla_breach_rate t with
  | none => rfl
  | some r => rfl

theorem rootBullet_kind (t : Table) : (rootBullet t).kind = BulletKind.root := by
  unfold rootBullet
  cases root_cause_col t.cols with
  | none => rfl
  | some c =>
    dsimp only
    cases valueCounts ((colValues t c).filterMap id) with
    | nil => rfl
    | cons p l => rfl

theorem delayBullet_neutral (t : Table) :
    (delayBullet t).isNeutral = delayInsufficient t := by
  unfold delayBullet delayInsufficient delayByRole
  cases hr : role_col t.cols with
  | none => rfl
  | some rc =>
    cases hd : delay_col t.cols with
    | none => rfl
    | some dc =>
      cases hs : sortDescBy leSnd (groupMeans (delayPairs t)) with
      | nil => rfl
      | cons p l => rfl

theorem queueBullet_neutral (toDT : String → Option ℚ) (t : Table) (now : ℚ) :
    (queueBullet toDT t now).isNeutral = (queue_df toDT t now).isEmpty := by
  unfold queueBullet queue_df queueRows
  cases hs : status_col t.cols with
  | none => rfl
  | some sc =>
    cases he : status_entered_col t.cols with
    | none => rfl
    | some ec =>
      cases hq : sortDescBy leSnd (groupMeans (t.rows.filterMap (fun r =>
          match getCell t.cols r sc, (getCell t.cols r ec).bind toDT with
          | some st, some d => some (st, now - d)
          | _, _ => none))) with
      | nil => rfl
      | cons p l => rfl

theorem slaBullet_neutral (t : Table) :
    (slaBullet t).isNeutral = (sla_breach_rate t).isNone := by
  unfold slaBullet
  cases sla_breach_rate t with
  | none => rfl
  | some r => rfl

theorem rootBullet_neutral (t : Table) :
    (rootBullet t).isNeutral = rootInsufficient t := by
  unfold rootBullet rootInsufficient rootCauseCounts
  cases hcol : root_cause_col t.cols with
  | none => rfl
  | some c =>
    dsimp only
    cases hv : valueCounts ((colValues t c).filterMap id) with
    | nil => simp [hv, Bullet.isNeutral]
    | cons p l => simp [hv, Bullet.isNeutral]

/-- C9 counterexample: the claim asserts that a finding whose underlying
metric is insufficient is always replaced by a neutral line.  On the
reachable header-only CSV `T_slaEmpty` both SLA fields resolve but the
column has no non-missing value, so the SLA metric is insufficient per the
spec's definition; yet `float(tmp[col].mean() * 100)` is NaN, not `None`,
the branch condition `sla_breach_rate is not None` holds, and the summary
prints "- SLA risk: breach rate is nan%." — a non-neutral finding rendered
as data. -/
theorem summary_nan_sla_finding_cex :
    sla_breached_col T_slaEmpty.cols = some "SLA_Breached" ∧
    priority_col T_slaEmpty.cols = some "Priority" ∧
    (colValues T_slaEmpty "SLA_Breached").filterMap id = [] ∧
    sla_breach_rate T_slaEmpty = some PandasFloat.nan ∧
    slaBullet T_slaEmpty = Bullet.slaRisk PandasFloat.nan ∧
    (Bullet.slaRisk PandasFloat.nan).isNeutral = false := by
  exact ⟨by decide, by decide, by decide, by decide, by decide, by decide⟩

/-- C9 amended: for every input table the executive summary is exactly
four findings in the fixed order delay bottleneck, queue bottleneck, SLA
risk, primary root cause, and the list is substituted in place, never
shortened; the delay, queue and root-cause findings are the neutral
cannot-be-determined lines (whose variants name the missing fields)
exactly when their metric is insufficient, while the SLA finding is
neutral exactly when `sla_breach_rate` is Python `None` — a NaN rate from
a zero-row table is rendered as data, not replaced by the neutral line. -/
theorem summary_fixed_four_findings (toDT : String → Option ℚ) (t : Table)
    (now : ℚ) :
    (bullets toDT t now).map Bullet.kind
      = [BulletKind.delay, BulletKind.queue, BulletKind.sla, BulletKind.root] ∧
    (bullets toDT t now).map Bullet.isNeutral
      = [delayInsufficient t, (queue_df toDT t now).isEmpty,
         (sla_breach_rate t).isNone, rootInsufficient t] := by
  refine ⟨?_, ?_⟩
  · simp only [bullets, List.map_cons, List.map_nil, delayBullet_kind,
      queueBullet_kind, slaBullet_kind, rootBullet_kind]
  · simp only [bullets, List.map_cons, List.map_nil, delayBullet_neutral,
      queueBullet_neutral, slaBullet_neutral, rootBullet_neutral]

end LuantaApp
